import Mathlib

/-!
Verification of the NBANetwork backend (src/main.py): a shallow embedding of the
player-repository CRUD service and the pairwise network-relation endpoint, with
proofs of the spec's claims about them.

Modelling conventions: Python floats are modelled as rationals (every literal in
the source is an exact decimal); the SQLite store is a list of rows plus the next
primary key (the table starts empty and nothing deletes rows, so SQLite's
max-rowid-plus-one rule is a counter starting at 1); sessions opened by
SessionLocal() and not yet closed are counted in the state; the stream of
np.random.uniform(0.7, 1.0) draws is an explicit weight-source parameter.
-/

/-- A network relation as serialised by POST /api/network (src/main.py lines
64-67): two player identifiers and a weight. -/
structure NetworkRelation where
  player1_id : Int
  player2_id : Int
  weight : ℚ
deriving DecidableEq

/-- A weight source stands for the draws of np.random.uniform(0.7, 1.0) at
src/main.py line 116: `w i j` is the value drawn in the loop iteration with outer
index i and inner index j. -/
def UniformContract (w : Nat → Nat → ℚ) : Prop :=
  ∀ i j : Nat, 7/10 ≤ w i j ∧ w i j < 1

/-- Shallow embedding of get_network_relations (src/main.py lines 106-119): for
i in range(n), for j in range(i+1, n), append a relation pairing the ids at
positions i and j with a freshly drawn weight. -/
def get_network_relations (w : Nat → Nat → ℚ) (player_ids : List Int) :
    List NetworkRelation :=
  (List.range player_ids.length).flatMap fun i =>
    (List.range' (i + 1) (player_ids.length - (i + 1))).map fun j =>
      ⟨player_ids.getD i 0, player_ids.getD j 0, w i j⟩

/-- The index pairs (i, j) with i < j < n, in the order the nested loops of
get_network_relations visit them. -/
def indexPairs (n : Nat) : List (Nat × Nat) :=
  (List.range n).flatMap fun i =>
    (List.range' (i + 1) (n - (i + 1))).map fun j => (i, j)

/-- Strict lexicographic order on index pairs. -/
def pairLexLt (p q : Nat × Nat) : Prop :=
  p.1 < q.1 ∨ (p.1 = q.1 ∧ p.2 < q.2)

/-- A persisted row of the players table (src/main.py lines 27-36). -/
structure PlayerRow where
  id : Nat
  name : String
  team : String
  position : String
  points : ℚ
  assists : ℚ
  rebounds : ℚ
deriving DecidableEq

/-- The PlayerCreate transfer model (src/main.py lines 40-50): the six player
fields, without the id. -/
structure PlayerCreate where
  name : String
  team : String
  position : String
  points : ℚ
  assists : ℚ
  rebounds : ℚ
deriving DecidableEq

/-- The six non-id fields of a stored row, for comparing rows with the inputs
that created them. -/
def PlayerRow.content (r : PlayerRow) : PlayerCreate :=
  ⟨r.name, r.team, r.position, r.points, r.assists, r.rebounds⟩

/-- The row the store builds from a PlayerCreate when it assigns primary key n
(Player(**player.dict()) plus the key, src/main.py line 99). -/
def mkRow (n : Nat) (p : PlayerCreate) : PlayerRow :=
  ⟨n, p.name, p.team, p.position, p.points, p.assists, p.rebounds⟩

/-- State of the backing store (src/main.py lines 71-76): the rows of the players
table in storage order, the next primary key SQLite will assign, and the number of
sessions opened by SessionLocal() and not yet closed. -/
structure DBState where
  players : List PlayerRow
  nextId : Nat
  openSessions : Nat
deriving DecidableEq

/-- SessionLocal() (src/main.py line 73): opens a fresh session. -/
def SessionLocal (s : DBState) : DBState :=
  ⟨s.players, s.nextId, s.openSessions + 1⟩

/-- db.close(): closes one open session. -/
def closeSession (s : DBState) : DBState :=
  ⟨s.players, s.nextId, s.openSessions - 1⟩

/-- get_db (src/main.py lines 80-85): the dependency generator that yields a fresh
session and closes it in a finally block, on every exit path.  It is defined in
the source but no endpoint uses it: every handler calls SessionLocal() directly. -/
def get_db {α : Type} (body : DBState → α × DBState) (s : DBState) : α × DBState :=
  let r := body (SessionLocal s)
  (r.1, closeSession r.2)

/-- A freshly created players.db: no rows, first primary key 1, no open session. -/
def initState : DBState := ⟨[], 1, 0⟩

/-- db.add(...) followed by commit for one row: appends the row built from the
PlayerCreate under the next primary key and advances the key. -/
def addPlayer (p : PlayerCreate) (s : DBState) : DBState :=
  ⟨s.players ++ [mkRow s.nextId p], s.nextId + 1, s.openSessions⟩

/-- get_players (src/main.py lines 89-93): opens a session and returns every row
of the players table.  The session is not closed. -/
def get_players (s : DBState) : List PlayerRow × DBState :=
  let db := SessionLocal s
  (db.players, db)

/-- create_player (src/main.py lines 96-103): opens a session, inserts the row
built from the validated body, commits, and returns the persisted row with its
assigned id (db.refresh).  The session is not closed. -/
def create_player (p : PlayerCreate) (s : DBState) : PlayerRow × DBState :=
  let db := SessionLocal s
  (mkRow db.nextId p, addPlayer p db)

/-- The five fixed sample records of create_sample_data (src/main.py lines
127-140). -/
def sample_players : List PlayerCreate :=
  [⟨"Stephen Curry", "GSW", "PG", 32.1, 7.1, 5.2⟩,
   ⟨"LeBron James", "LAL", "SF", 28.9, 8.3, 8.1⟩,
   ⟨"Giannis Antetokounmpo", "MIL", "PF", 29.7, 5.8, 11.5⟩,
   ⟨"Luka Doncic", "DAL", "PG", 32.4, 8.0, 8.6⟩,
   ⟨"Nikola Jokic", "DEN", "C", 26.4, 9.1, 11.8⟩]

/-- create_sample_data (src/main.py lines 123-147): opens a session, adds the five
sample rows in one transaction, and returns the confirmation message.  The session
is not closed. -/
def create_sample_data (s : DBState) : String × DBState :=
  let db := SessionLocal s
  ("Sample data created successfully", sample_players.foldl (fun t p => addPlayer p t) db)

/-- POST /api/network (src/main.py lines 106-119): the handler never references
the store; it computes the relations from the request body alone. -/
def post_network (w : Nat → Nat → ℚ) (player_ids : List Int) (s : DBState) :
    List NetworkRelation × DBState :=
  (get_network_relations w player_ids, s)

/-- A primitive JSON value in a request body: a string or a number. -/
inductive JValue where
  | jstr (s : String)
  | jnum (q : ℚ)
deriving DecidableEq

/-- A raw POST /api/players body: each of the six PlayerCreate fields either
absent or carrying a primitive value. -/
structure RawBody where
  name : Option JValue
  team : Option JValue
  position : Option JValue
  points : Option JValue
  assists : Option JValue
  rebounds : Option JValue
deriving DecidableEq

/-- Whether an optional field is present and carries a string. -/
def isStrVal : Option JValue → Bool
  | some (JValue.jstr _) => true
  | _ => false

/-- Whether an optional field is present and carries a number. -/
def isNumVal : Option JValue → Bool
  | some (JValue.jnum _) => true
  | _ => false

/-- The string carried by a field known to hold one. -/
def strOf : Option JValue → String
  | some (JValue.jstr s) => s
  | _ => ""

/-- The number carried by a field known to hold one. -/
def numOf : Option JValue → ℚ
  | some (JValue.jnum q) => q
  | _ => 0

/-- Modelled from the spec: the field-level detail of a validation failure (the
pydantic/FastAPI validation engine is library code, not part of src/; src/main.py
lines 40-50 only declare the model).  Lists the fields that are missing or carry
the wrong primitive type: the three text fields must hold strings, the three
statistic fields numbers. -/
def fieldErrors (b : RawBody) : List String :=
  (if isStrVal b.name then [] else ["name"])
  ++ (if isStrVal b.team then [] else ["team"])
  ++ (if isStrVal b.position then [] else ["position"])
  ++ (if isNumVal b.points then [] else ["points"])
  ++ (if isNumVal b.assists then [] else ["assists"])
  ++ (if isNumVal b.rebounds then [] else ["rebounds"])

/-- Modelled from the spec: pydantic validation of a PlayerCreate body, which
"requires all six Player fields" and "rejects requests missing any field or with
wrong primitive types", reporting the offending fields. -/
def validatePlayerCreate (b : RawBody) : Except (List String) PlayerCreate :=
  if fieldErrors b = [] then
    Except.ok ⟨strOf b.name, strOf b.team, strOf b.position,
               numOf b.points, numOf b.assists, numOf b.rebounds⟩
  else
    Except.error (fieldErrors b)

/-- The full POST /api/players request path: FastAPI validates the body against
PlayerCreate before the handler runs; on validation failure the request is
rejected with a client error carrying the field detail and the handler (hence the
store) is never reached. -/
def post_players (b : RawBody) (s : DBState) : Except (List String) PlayerRow × DBState :=
  match validatePlayerCreate b with
  | Except.error e => (Except.error e, s)
  | Except.ok p =>
    let r := create_player p s
    (Except.ok r.1, r.2)

/-- A body missing one of the six required PlayerCreate fields or carrying the
wrong primitive type for it. -/
def missingOrIllTyped (b : RawBody) : Prop :=
  isStrVal b.name = false ∨ isStrVal b.team = false ∨ isStrVal b.position = false
  ∨ isNumVal b.points = false ∨ isNumVal b.assists = false ∨ isNumVal b.rebounds = false

/-- A write request against the store: a player creation or a sample-data seed. -/
inductive WriteOp where
  | createOp (p : PlayerCreate)
  | seedOp

/-- Execute one write request. -/
def execOp (s : DBState) : WriteOp → DBState
  | WriteOp.createOp p => (create_player p s).2
  | WriteOp.seedOp => (create_sample_data s).2

/-- Execute a sequence of write requests. -/
def run (s : DBState) (ops : List WriteOp) : DBState :=
  ops.foldl execOp s

/-- The rows built from a list of PlayerCreate inputs under consecutive primary
keys starting at n. -/
def rowsFrom (n : Nat) : List PlayerCreate → List PlayerRow
  | [] => []
  | p :: ps => mkRow n p :: rowsFrom (n + 1) ps

/-- The rows a single write request inserts when executed in state s. -/
def opRows (s : DBState) : WriteOp → List PlayerRow
  | WriteOp.createOp p => [mkRow s.nextId p]
  | WriteOp.seedOp => rowsFrom s.nextId sample_players

/-- The rows a sequence of write requests inserts, in insertion order. -/
def runRows (s : DBState) : List WriteOp → List PlayerRow
  | [] => []
  | op :: ops => opRows s op ++ runRows (execOp s op) ops

/-- Every stored id is below the next key the store will assign.  Because no
endpoint deletes or updates rows, the stored ids are exactly the ids ever
assigned, so this invariant makes each newly assigned id fresh. -/
def idsBelowNext (s : DBState) : Prop :=
  ∀ r ∈ s.players, r.id < s.nextId

/-- The weight source that always draws 7/10, the lower endpoint of the half-open
interval sampled by np.random.uniform(0.7, 1.0). -/
def wLow : Nat → Nat → ℚ := fun _ _ => 7/10

/-- A concrete admissible weight source drawing 4/5 everywhere. -/
def wMid : Nat → Nat → ℚ := fun _ _ => 4/5

/-- A concrete PlayerCreate input used to evaluate the endpoints. -/
def samplePC : PlayerCreate := ⟨"Alice", "BOS", "PG", 1, 2, 3⟩

/-- A concrete body whose points field is missing. -/
def badBody : RawBody :=
  ⟨some (JValue.jstr ("Alice")), some (JValue.jstr ("BOS")), some (JValue.jstr ("PG")),
   none, some (JValue.jnum 1), some (JValue.jnum 2)⟩

/-- The row the fifth sample record receives when seeded into an empty store. -/
def jokicRow : PlayerRow := ⟨5, "Nikola Jokic", "DEN", "C", 26.4, 9.1, 11.8⟩

/-!
Helper lemmas shared by the claim theorems.
-/

/-- The generator is the relation constructor mapped over the index pairs. -/
theorem get_network_relations_eq_map (w : Nat → Nat → ℚ) (ids : List Int) :
    get_network_relations w ids =
      (indexPairs ids.length).map fun p => ⟨ids.getD p.1 0, ids.getD p.2 0, w p.1 p.2⟩ := by
  simp only [get_network_relations, indexPairs, List.map_flatMap, List.map_map]
  rfl

/-- indexPairs n holds exactly the pairs (i, j) with i < j < n. -/
theorem mem_indexPairs {n : Nat} {p : Nat × Nat} :
    p ∈ indexPairs n ↔ p.1 < p.2 ∧ p.2 < n := by
  obtain ⟨i, j⟩ := p
  simp only [indexPairs, List.mem_flatMap, List.mem_map, List.mem_range, List.mem_range'_1,
    Prod.mk.injEq]
  constructor
  · rintro ⟨a, ha, b, hb, rfl, rfl⟩
    omega
  · rintro ⟨hij, hjn⟩
    exact ⟨i, by omega, j, by omega, rfl, rfl⟩

/-- There are n(n-1)/2 index pairs. -/
theorem length_indexPairs (n : Nat) : (indexPairs n).length = n * (n - 1) / 2 := by
  have h : (indexPairs n).length = ((List.range n).map fun i => n - (i + 1)).sum := by
    simp [indexPairs, List.length_flatMap, Function.comp_def]
  have hfun : (fun i : Nat => n - (i + 1)) = fun i => n - 1 - i := funext fun i => by omega
  have h2 : ((List.range n).map fun i => n - 1 - i).sum
      = ∑ i ∈ Finset.range n, (n - 1 - i) := rfl
  rw [h, hfun, h2, Finset.sum_range_reflect (fun i => i) n]
  exact Finset.sum_range_id n

/-- The nested loops visit the index pairs in strictly increasing lexicographic
order. -/
theorem pairwise_indexPairs (n : Nat) : List.Pairwise pairLexLt (indexPairs n) := by
  rw [indexPairs, List.pairwise_flatMap]
  constructor
  · intro a _
    rw [List.pairwise_map]
    have h : List.Pairwise (· < ·) (List.range' (a + 1) (n - (a + 1))) := by
      rw [List.range'_eq_map_range, List.pairwise_map]
      exact (List.pairwise_lt_range _).imp (fun h => by omega)
    exact h.imp fun h => Or.inr ⟨rfl, h⟩
  · refine (List.pairwise_lt_range n).imp ?_
    intro a b hab x hx y hy
    simp only [List.mem_map] at hx hy
    obtain ⟨j, _, rfl⟩ := hx
    obtain ⟨k, _, rfl⟩ := hy
    exact Or.inl hab

/-- Folding addPlayer appends the rows built under consecutive keys, advances the
key by the number of inputs, and leaves the session count alone. -/
theorem foldl_addPlayer (ps : List PlayerCreate) (s : DBState) :
    (ps.foldl (fun t p => addPlayer p t) s).players = s.players ++ rowsFrom s.nextId ps
    ∧ (ps.foldl (fun t p => addPlayer p t) s).nextId = s.nextId + ps.length
    ∧ (ps.foldl (fun t p => addPlayer p t) s).openSessions = s.openSessions := by
  induction ps generalizing s with
  | nil => simp [rowsFrom]
  | cons p ps ih =>
    obtain ⟨h1, h2, h3⟩ := ih (addPlayer p s)
    refine ⟨?_, ?_, ?_⟩
    · rw [List.foldl_cons, h1, rowsFrom]
      simp [addPlayer]
    · rw [List.foldl_cons, h2]
      simp [addPlayer]
      omega
    · rw [List.foldl_cons, h3]
      rfl

/-- rowsFrom builds one row per input. -/
theorem length_rowsFrom (n : Nat) (ps : List PlayerCreate) :
    (rowsFrom n ps).length = ps.length := by
  induction ps generalizing n with
  | nil => rfl
  | cons p ps ih => simp [rowsFrom, ih]

/-- Ids of rows built by rowsFrom lie in [n, n + length). -/
theorem mem_rowsFrom {r : PlayerRow} {n : Nat} {ps : List PlayerCreate}
    (h : r ∈ rowsFrom n ps) : n ≤ r.id ∧ r.id < n + ps.length := by
  induction ps generalizing n with
  | nil => simp [rowsFrom] at h
  | cons p ps ih =>
    rw [rowsFrom] at h
    rcases List.mem_cons.mp h with h | h
    · subst h
      simp [mkRow]
    · have := ih h
      simp only [List.length_cons]
      omega

/-- Executing one write appends exactly its rows and advances the key by their
number. -/
theorem execOp_players (s : DBState) (op : WriteOp) :
    (execOp s op).players = s.players ++ opRows s op
    ∧ (execOp s op).nextId = s.nextId + (opRows s op).length := by
  cases op with
  | createOp p => exact ⟨rfl, rfl⟩
  | seedOp =>
    obtain ⟨h1, h2, _⟩ := foldl_addPlayer sample_players (SessionLocal s)
    refine ⟨h1, ?_⟩
    rw [show (execOp s WriteOp.seedOp).nextId
        = (sample_players.foldl (fun t p => addPlayer p t) (SessionLocal s)).nextId from rfl,
      h2, show opRows s WriteOp.seedOp = rowsFrom s.nextId sample_players from rfl,
      length_rowsFrom]
    rfl

/-- Ids of the rows a write inserts lie between the old and the new next key. -/
theorem mem_opRows {r : PlayerRow} {s : DBState} {op : WriteOp}
    (h : r ∈ opRows s op) : s.nextId ≤ r.id ∧ r.id < s.nextId + (opRows s op).length := by
  cases op with
  | createOp p =>
    rw [show opRows s (WriteOp.createOp p) = [mkRow s.nextId p] from rfl] at h ⊢
    rcases List.mem_singleton.mp h with rfl
    simp [mkRow]
  | seedOp =>
    rw [show opRows s WriteOp.seedOp = rowsFrom s.nextId sample_players from rfl] at h ⊢
    have := mem_rowsFrom h
    rw [length_rowsFrom]
    exact this

/-- Executing one write preserves the id invariant. -/
theorem execOp_invariant {s : DBState} (op : WriteOp) (h : idsBelowNext s) :
    idsBelowNext (execOp s op) := by
  intro r hr
  obtain ⟨hp, hn⟩ := execOp_players s op
  rw [hp] at hr
  rw [hn]
  rcases List.mem_append.mp hr with h' | h'
  · have := h r h'
    omega
  · have := mem_opRows h'
    omega

/-- The id invariant holds after any run of write requests. -/
theorem run_invariant (ops : List WriteOp) (s : DBState) (h : idsBelowNext s) :
    idsBelowNext (run s ops) := by
  induction ops generalizing s with
  | nil => exact h
  | cons op ops ih => exact ih (execOp s op) (execOp_invariant op h)

/-- A missing or ill-typed field leaves a field name in the error detail. -/
theorem fieldErrors_nonempty {b : RawBody} (h : missingOrIllTyped b) :
    fieldErrors b ≠ [] := by
  intro hc
  rw [fieldErrors] at hc
  rcases h with h | h | h | h | h | h <;> rw [h] at hc <;>
    simp [List.append_eq_nil] at hc

/-!
Claim theorems.
-/

/-- Claim C1: for an input list of n player identifiers, get_network_relations
returns exactly n(n-1)/2 relations, enumerating all C(n,2) unordered pairs by
position: one relation for every position pair (i, j) with i < j, with
player1_id the identifier at position i and player2_id the one at position j,
and every returned relation arises from such a pair; for n ≤ 1 the result is
the empty list, a valid non-error outcome. -/
theorem network_relations_enumerate_all_position_pairs (w : Nat → Nat → ℚ)
    (ids : List Int) :
    (get_network_relations w ids).length = ids.length * (ids.length - 1) / 2
    ∧ (∀ i j : Nat, i < j → j < ids.length →
        (⟨ids.getD i 0, ids.getD j 0, w i j⟩ : NetworkRelation) ∈
          get_network_relations w ids)
    ∧ (∀ r ∈ get_network_relations w ids, ∃ i j : Nat, i < j ∧ j < ids.length ∧
        r = ⟨ids.getD i 0, ids.getD j 0, w i j⟩)
    ∧ (ids.length ≤ 1 → get_network_relations w ids = []) := by
  refine ⟨?_, ?_, ?_, ?_⟩
  · rw [get_network_relations_eq_map, List.length_map, length_indexPairs]
  · intro i j hij hj
    rw [get_network_relations_eq_map, List.mem_map]
    exact ⟨(i, j), mem_indexPairs.mpr ⟨hij, hj⟩, rfl⟩
  · intro r hr
    rw [get_network_relations_eq_map, List.mem_map] at hr
    obtain ⟨p, hp, rfl⟩ := hr
    have hmem := mem_indexPairs.mp hp
    exact ⟨p.1, p.2, hmem.1, hmem.2, rfl⟩
  · intro h
    rw [get_network_relations_eq_map]
    have h0 : indexPairs ids.length = [] := by
      rw [List.eq_nil_iff_forall_not_mem]
      intro p hp
      have := mem_indexPairs.mp hp
      omega
    rw [h0]
    rfl

/-- Witness for C1 at the concrete input [1, 2, 3]: the relation for positions
(0, 1) is returned and the output has 3 = C(3,2) relations. -/
theorem network_relations_enumerate_all_position_pairs_witness :
    (⟨1, 2, wMid 0 1⟩ : NetworkRelation) ∈ get_network_relations wMid [1, 2, 3]
    ∧ (get_network_relations wMid [1, 2, 3]).length = 3 :=
  ⟨(network_relations_enumerate_all_position_pairs wMid [1, 2, 3]).2.1 0 1
      (by decide) (by decide),
   (network_relations_enumerate_all_position_pairs wMid [1, 2, 3]).1⟩

/-- Claim C2 counterexample: the weights are drawn from the half-open interval
[0.7, 1.0) — np.random.uniform includes its lower endpoint — so the claim's
"each weight strictly between 0.7 and 1.0" is false: the admissible source that
draws 0.7 yields a relation whose weight is not strictly above 0.7. -/
theorem network_weight_strictness_counterexample :
    ¬ (∀ w : Nat → Nat → ℚ, UniformContract w →
        ∀ r ∈ get_network_relations w [1, 2], 7/10 < r.weight ∧ r.weight < 1) := by
  intro h
  have hc : UniformContract wLow := fun i j => ⟨le_refl _, by norm_num [wLow]⟩
  have hlt := (h wLow hc ⟨1, 2, 7/10⟩ (List.Mem.head _)).1
  exact absurd hlt (lt_irrefl _)

/-- Claim C2 (amended): every relation returned by get_network_relations has its
weight in the half-open interval [0.7, 1.0): at least 0.7 and strictly below
1.0.  The lower endpoint 0.7 is attainable, so the bound is not strict there. -/
theorem network_weight_in_half_open_interval (w : Nat → Nat → ℚ) (ids : List Int)
    (hw : UniformContract w) :
    ∀ r ∈ get_network_relations w ids, 7/10 ≤ r.weight ∧ r.weight < 1 := by
  intro r hr
  rw [get_network_relations_eq_map, List.mem_map] at hr
  obtain ⟨p, _, rfl⟩ := hr
  exact hw p.1 p.2

/-- Witness for the amended C2: the source drawing 4/5 everywhere satisfies the
contract and the returned weight 4/5 lies in [0.7, 1.0). -/
theorem network_weight_in_half_open_interval_witness :
    7/10 ≤ (4/5 : ℚ) ∧ (4/5 : ℚ) < 1 :=
  network_weight_in_half_open_interval wMid [1, 2]
    (fun i j => ⟨by norm_num [wMid], by norm_num [wMid]⟩)
    ⟨1, 2, wMid 0 1⟩ (List.Mem.head _)

/-- Claim C3 (the code violates it): every endpoint opens a fresh session via
SessionLocal() but none closes it — evaluating each handler on the initial state
leaves the open-session count at 1 even on the success path.  The get_db
dependency defined at src/main.py lines 80-85 is the only code that closes the
session it opens (last conjunct), and no endpoint uses it. -/
theorem endpoints_leak_their_session :
    (get_players initState).2.openSessions = 1
    ∧ (create_player samplePC initState).2.openSessions = 1
    ∧ (create_sample_data initState).2.openSessions = 1
    ∧ (get_db (fun db => (db.players, db)) initState).2.openSessions = 0 :=
  ⟨rfl, rfl, rfl, rfl⟩

/-- Claim C4: create_player persists exactly one new row, returns it with its six
content fields equal to the input and its id the freshly assigned key, which
never collides with any id already in the store; the freshness invariant holds
in every state reachable from the initial one (final conjunct), and since no
endpoint deletes or updates rows the stored ids are exactly the ids ever
assigned. -/
theorem create_player_persists_one_fresh_row (p : PlayerCreate) (s : DBState)
    (h : idsBelowNext s) :
    ((create_player p s).1).content = p
    ∧ ((create_player p s).2).players = s.players ++ [(create_player p s).1]
    ∧ (create_player p s).1.id ∉ List.map PlayerRow.id s.players
    ∧ idsBelowNext (create_player p s).2
    ∧ ∀ ops : List WriteOp, idsBelowNext (run initState ops) := by
  refine ⟨rfl, rfl, ?_, ?_, ?_⟩
  · intro hmem
    rw [List.mem_map] at hmem
    obtain ⟨r, hr, hid⟩ := hmem
    have hlt := h r hr
    have hid' : r.id = s.nextId := hid
    omega
  · intro r hr
    have hr' : r ∈ s.players ++ [mkRow s.nextId p] := hr
    have hn : ((create_player p s).2).nextId = s.nextId + 1 := rfl
    rw [hn]
    rcases List.mem_append.mp hr' with h' | h'
    · have := h r h'
      omega
    · rcases List.mem_singleton.mp h' with rfl
      simp [mkRow]
  · exact fun ops => run_invariant ops initState fun r hr => absurd hr (List.not_mem_nil r)

/-- Witness for C4 on the empty store: the persisted row's content equals the
input and its id collides with nothing. -/
theorem create_player_persists_one_fresh_row_witness :
    ((create_player samplePC initState).1).content = samplePC
    ∧ (create_player samplePC initState).1.id ∉ List.map PlayerRow.id initState.players :=
  ⟨(create_player_persists_one_fresh_row samplePC initState
      fun r hr => absurd hr (List.not_mem_nil r)).1,
   (create_player_persists_one_fresh_row samplePC initState
      fun r hr => absurd hr (List.not_mem_nil r)).2.2.1⟩

/-- Claim C5: from an empty store, one create_sample_data call returns the
confirmation message and inserts exactly the five fixed records — including
Nikola Jokic of DEN at position C with 26.4 points, 9.1 assists, 11.8 rebounds,
stored under id 5 — and a second call inserts the same five again: ten rows
whose contents are the sample list twice and whose ids are pairwise distinct. -/
theorem sample_data_seeds_five_then_ten_rows :
    (create_sample_data initState).1 = "Sample data created successfully"
    ∧ ((create_sample_data initState).2).players.length = 5
    ∧ jokicRow ∈ ((create_sample_data initState).2).players
    ∧ ((create_sample_data (create_sample_data initState).2).2).players.length = 10
    ∧ (((create_sample_data (create_sample_data initState).2).2).players.map
        PlayerRow.id).Nodup
    ∧ ((create_sample_data (create_sample_data initState).2).2).players.map
        PlayerRow.content = sample_players ++ sample_players := by
  refine ⟨rfl, rfl,
    List.Mem.tail _ (List.Mem.tail _ (List.Mem.tail _ (List.Mem.tail _ (List.Mem.head _)))),
    rfl, ?_, rfl⟩
  rw [show (((create_sample_data (create_sample_data initState).2).2).players.map
      PlayerRow.id) = [1, 2, 3, 4, 5, 6, 7, 8, 9, 10] from rfl]
  decide

/-- Claim C6: a create request whose body is missing one of the six required
fields or carries the wrong primitive type for one of them is rejected with a
validation error carrying field-level detail, and the store is left exactly as
it was. -/
theorem invalid_create_rejected_store_unchanged (b : RawBody) (s : DBState)
    (h : missingOrIllTyped b) :
    (∃ e, (post_players b s).1 = Except.error e ∧ e ≠ [])
    ∧ (post_players b s).2 = s := by
  have hne := fieldErrors_nonempty h
  have hv : validatePlayerCreate b = Except.error (fieldErrors b) := by
    rw [validatePlayerCreate, if_neg hne]
  have hp : post_players b s = (Except.error (fieldErrors b), s) := by
    unfold post_players
    rw [hv]
  exact ⟨⟨fieldErrors b, by rw [hp], hne⟩, by rw [hp]⟩

/-- Witness for C6: the concrete body with no points field is rejected and the
empty store stays empty. -/
theorem invalid_create_rejected_store_unchanged_witness :
    (∃ e, (post_players badBody initState).1 = Except.error e ∧ e ≠ [])
    ∧ (post_players badBody initState).2 = initState :=
  invalid_create_rejected_store_unchanged badBody initState
    (Or.inr (Or.inr (Or.inr (Or.inl rfl))))

/-- Claim C7: after any sequence of create and sample-data write requests,
get_players returns exactly the prior contents followed by every inserted row in
insertion order: no record is lost and none is duplicated spuriously. -/
theorem list_players_returns_all_created (s : DBState) (ops : List WriteOp) :
    (get_players (run s ops)).1 = s.players ++ runRows s ops := by
  induction ops generalizing s with
  | nil => simp [run, get_players, SessionLocal, runRows]
  | cons op ops ih =>
    have h1 : run s (op :: ops) = run (execOp s op) ops := rfl
    rw [h1, ih (execOp s op), (execOp_players s op).1, runRows, List.append_assoc]

/-- Claim C8: a repeated identifier is treated as a distinct list position — no
deduplication — so the relation emitted for the two positions pairs the
identifier with its own duplicate: player1_id = player2_id. -/
theorem duplicate_id_yields_self_pair (w : Nat → Nat → ℚ) (ids : List Int)
    (i j : Nat) (hij : i < j) (hj : j < ids.length)
    (hdup : ids.getD i 0 = ids.getD j 0) :
    ∃ r ∈ get_network_relations w ids,
      r.player1_id = r.player2_id ∧ r.player1_id = ids.getD i 0 := by
  refine ⟨⟨ids.getD i 0, ids.getD j 0, w i j⟩, ?_, hdup, rfl⟩
  rw [get_network_relations_eq_map, List.mem_map]
  exact ⟨(i, j), mem_indexPairs.mpr ⟨hij, hj⟩, rfl⟩

/-- Witness for C8 at the concrete input [5, 5]: a self-pair relation for the
duplicated identifier 5 is returned. -/
theorem duplicate_id_yields_self_pair_witness :
    ∃ r ∈ get_network_relations wMid [5, 5],
      r.player1_id = r.player2_id ∧ r.player1_id = 5 :=
  duplicate_id_yields_self_pair wMid [5, 5] 0 1 (by decide) (by decide) (by decide)

/-- Claim C9: the network endpoint never touches the store: it opens no session,
returns the state exactly as it received it, and its response depends only on
the request's player_ids and the weight source — it is identical across any two
store states, so identifiers with no stored Player are processed like any
other. -/
theorem network_endpoint_leaves_store_untouched (w : Nat → Nat → ℚ)
    (ids : List Int) (s t : DBState) :
    (post_network w ids s).2 = s
    ∧ (post_network w ids s).2.openSessions = s.openSessions
    ∧ (post_network w ids s).1 = (post_network w ids t).1
    ∧ (post_network w ids s).1 = get_network_relations w ids :=
  ⟨rfl, rfl, rfl, rfl⟩

/-- Claim C10: the output lists the relations in lexicographic order of the
position pairs: it is the relation constructor mapped over indexPairs, which is
strictly increasing for pairLexLt; for input [1, 2, 3] the relations appear in
the order (1,2), (1,3), (2,3). -/
theorem network_relations_in_lex_order (w : Nat → Nat → ℚ) (ids : List Int) :
    get_network_relations w ids =
      (indexPairs ids.length).map
        (fun p => ⟨ids.getD p.1 0, ids.getD p.2 0, w p.1 p.2⟩)
    ∧ List.Pairwise pairLexLt (indexPairs ids.length)
    ∧ get_network_relations w [1, 2, 3] =
        [⟨1, 2, w 0 1⟩, ⟨1, 3, w 0 2⟩, ⟨2, 3, w 1 2⟩] :=
  ⟨get_network_relations_eq_map w ids, pairwise_indexPairs ids.length, rfl⟩
